import Mathlib

set_option maxRecDepth 100000

/-!
Verification development for the volatility3 MBR scanning plugin
(`volatility3/framework/plugins/windows/mbrscan.py`).

The plugin scans a physical address space for the 2-byte MBR trailer
signature `55 AA`, reads the surrounding 512-byte candidate sector with
zero padding, rejects candidates whose 440-byte boot-code slice is all
zero, and otherwise emits one record combining the hit offset, the disk
signature, two MD5 digests, a partition-entry description string, and
the boot-code bytes.

Bytes are modelled as `Nat` values, an address space as a `List Nat`.
The scanner (`MultiStringScanner`), the padded layer read, and the
`PARTITION_TABLE` / `PARTITION_ENTRY` decoding live in parts of the
repository outside the plugin file; those are modelled from the spec
where noted.  MD5 is the standard algorithm (RFC 1321), embedded here
because the plugin delegates digests to `hashlib.md5(...).hexdigest()`.
-/

/-- `mbr_signature = b"\x55\xAA"` from the plugin source. -/
def mbr_signature : List Nat := [0x55, 0xAA]

/-- `mbr_length = 0x200` from the plugin source. -/
def mbr_length : Nat := 0x200

/-- `boot_code_length = 0x1B8` from the plugin source. -/
def boot_code_length : Nat := 0x1B8

/-- `mbr_start_offset = offset - (mbr_length - len(mbr_signature))` from the
plugin source: Python integers are unbounded and signed, so the sector start
is an `Int` and may be negative for hits near address 0. -/
def sector_start (p : Nat) : Int :=
  (p : Int) - ((mbr_length - mbr_signature.length : Nat) : Int)

/-- Modelled from the spec: a 2-byte signature match of `55 AA` at position
`p` requires both pattern bytes to lie inside the address space. -/
def isMatchAt (data : List Nat) (p : Nat) : Bool :=
  decide (p + 2 ≤ data.length) && (data.getD p 0 == 0x55) && (data.getD (p + 1) 0 == 0xAA)

/-- Modelled from the spec: `layer.scan` with a `MultiStringScanner` produces
the ascending sequence of offsets at which the pattern occurs. -/
def scanOffsets (data : List Nat) : List Nat :=
  (List.range data.length).filter (isMatchAt data)

/-- Modelled from the spec: `layer.read(offset, length, pad = True)` returns
exactly `length` bytes, zero-filling every requested position that falls
outside the address space. -/
def readPad (data : List Nat) (offset : Int) (length : Nat) : List Nat :=
  (List.range length).map fun (i : Nat) =>
    if 0 ≤ offset + (i : Int) ∧ offset + (i : Int) < (data.length : Int) then
      data.getD (offset + (i : Int)).toNat 0
    else 0

/-- `boot_code.count(b"\x00") == len(boot_code)` from the plugin source
(line 60): the count of zero bytes equals the slice length. -/
def allZerosCheck (boot_code : List Nat) : Bool :=
  boot_code.count 0 == boot_code.length

/-- The all-bytes-zero predicate the design calls for (spec words for the
MBRValidator contract), used to compare against `allZerosCheck`. -/
def allZeroSpec (boot_code : List Nat) : Prop :=
  ∀ b ∈ boot_code, b = 0

/-- The validator state step from plugin lines 59-62.  Python only assigns
`all_zeros` inside `if boot_code:`, so an empty slice leaves the variable
holding whatever a previous hit stored (`none` when no hit stored anything,
which makes the later `if not all_zeros:` raise `NameError`). -/
def validatorStep (all_zeros : Option Bool) (boot_code : List Nat) : Option Bool :=
  if boot_code.isEmpty then all_zeros
  else some (allZerosCheck boot_code)

/- ### MD5 (RFC 1321), as used via `hashlib.md5(...).hexdigest()` -/

/-- 2^32, the word modulus of MD5. -/
def w32 : Nat := 4294967296

/-- Left rotation of a 32-bit word (argument assumed `< 2^32`). -/
def rotl32 (x s : Nat) : Nat :=
  (x * 2 ^ s) % w32 + x / 2 ^ (32 - s)

/-- Bitwise complement on 32-bit words. -/
def md5Not (x : Nat) : Nat := x ^^^ (w32 - 1)

/-- Little-endian value of a byte list. -/
def leNat (bytes : List Nat) : Nat :=
  bytes.foldr (fun b acc => b + 256 * acc) 0

/-- The 64 MD5 sine-derived round constants. -/
def md5K : List Nat :=
  [0xd76aa478, 0xe8c7b756, 0x242070db, 0xc1bdceee,
   0xf57c0faf, 0x4787c62a, 0xa8304613, 0xfd469501,
   0x698098d8, 0x8b44f7af, 0xffff5bb1, 0x895cd7be,
   0x6b901122, 0xfd987193, 0xa679438e, 0x49b40821,
   0xf61e2562, 0xc040b340, 0x265e5a51, 0xe9b6c7aa,
   0xd62f105d, 0x02441453, 0xd8a1e681, 0xe7d3fbc8,
   0x21e1cde6, 0xc33707d6, 0xf4d50d87, 0x455a14ed,
   0xa9e3e905, 0xfcefa3f8, 0x676f02d9, 0x8d2a4c8a,
   0xfffa3942, 0x8771f681, 0x6d9d6122, 0xfde5380c,
   0xa4beea44, 0x4bdecfa9, 0xf6bb4b60, 0xbebfbc70,
   0x289b7ec6, 0xeaa127fa, 0xd4ef3085, 0x04881d05,
   0xd9d4d039, 0xe6db99e5, 0x1fa27cf8, 0xc4ac5665,
   0xf4292244, 0x432aff97, 0xab9423a7, 0xfc93a039,
   0x655b59c3, 0x8f0ccc92, 0xffeff47d, 0x85845dd1,
   0x6fa87e4f, 0xfe2ce6e0, 0xa3014314, 0x4e0811a1,
   0xf7537e82, 0xbd3af235, 0x2ad7d2bb, 0xeb86d391]

/-- The 64 MD5 per-round left-rotation amounts. -/
def md5S : List Nat :=
  [7, 12, 17, 22, 7, 12, 17, 22, 7, 12, 17, 22, 7, 12, 17, 22,
   5, 9, 14, 20, 5, 9, 14, 20, 5, 9, 14, 20, 5, 9, 14, 20,
   4, 11, 16, 23, 4, 11, 16, 23, 4, 11, 16, 23, 4, 11, 16, 23,
   6, 10, 15, 21, 6, 10, 15, 21, 6, 10, 15, 21, 6, 10, 15, 21]

/-- One MD5 round: `M` is the 16-word message block, `i` the round index. -/
def md5Round (M : List Nat) (st : Nat × Nat × Nat × Nat) (i : Nat) :
    Nat × Nat × Nat × Nat :=
  let a := st.1
  let b := st.2.1
  let c := st.2.2.1
  let d := st.2.2.2
  let fg : Nat × Nat :=
    if i < 16 then ((b &&& c) ||| (md5Not b &&& d), i)
    else if i < 32 then ((d &&& b) ||| (md5Not d &&& c), (5 * i + 1) % 16)
    else if i < 48 then (b ^^^ c ^^^ d, (3 * i + 5) % 16)
    else (c ^^^ (b ||| md5Not d), (7 * i) % 16)
  let tmp := (a + fg.1 + md5K.getD i 0 + M.getD fg.2 0) % w32
  (d, (b + rotl32 tmp (md5S.getD i 0)) % w32, b, c)

/-- Process one 64-byte chunk into the running MD5 state. -/
def md5Chunk (st : Nat × Nat × Nat × Nat) (chunk : List Nat) :
    Nat × Nat × Nat × Nat :=
  let M := (List.range 16).map fun j => leNat ((chunk.drop (4 * j)).take 4)
  let r := (List.range 64).foldl (md5Round M) st
  ((st.1 + r.1) % w32, (st.2.1 + r.2.1) % w32,
   (st.2.2.1 + r.2.2.1) % w32, (st.2.2.2 + r.2.2.2) % w32)

/-- The 8 little-endian bytes of the 64-bit message bit length. -/
def lenBytesLE64 (x : Nat) : List Nat :=
  (List.range 8).map fun i => x / 2 ^ (8 * i) % 256

/-- MD5 padding: a 0x80 byte, zeros to 56 mod 64, then the bit length. -/
def md5Pad (msg : List Nat) : List Nat :=
  msg ++ [0x80] ++ List.replicate ((119 - msg.length % 64) % 64) 0
      ++ lenBytesLE64 (8 * msg.length)

/-- Split a byte list into consecutive 64-byte chunks. -/
def chunks64 : List Nat → List (List Nat)
  | [] => []
  | x :: xs => ((x :: xs).take 64) :: chunks64 ((x :: xs).drop 64)
  termination_by l => l.length
  decreasing_by simp [List.length_drop]; omega

/-- The MD5 initial state. -/
def md5Init : Nat × Nat × Nat × Nat :=
  (0x67452301, 0xefcdab89, 0x98badcfe, 0x10325476)

/-- The 4 little-endian bytes of a 32-bit word. -/
def wordBytesLE32 (x : Nat) : List Nat :=
  [x % 256, x / 256 % 256, x / 65536 % 256, x / 16777216 % 256]

/-- The 16-byte MD5 digest of a byte list. -/
def md5 (msg : List Nat) : List Nat :=
  let st := (chunks64 (md5Pad msg)).foldl md5Chunk md5Init
  wordBytesLE32 st.1 ++ wordBytesLE32 st.2.1
    ++ wordBytesLE32 st.2.2.1 ++ wordBytesLE32 st.2.2.2

/-- The sixteen lowercase hexadecimal digit characters. -/
def hexDigits : List Char := "0123456789abcdef".data

/-- The lowercase hex digit of `n % 16`. -/
def hexChar (n : Nat) : Char := hexDigits.getD (n % 16) '0'

/-- Two lowercase hex characters per byte, in order. -/
def hexOfBytes (bytes : List Nat) : List Char :=
  bytes.flatMap fun b => [hexChar (b / 16), hexChar b]

/-- `hashlib.md5(msg).hexdigest()`: the lowercase fixed-width hex string of
the 16-byte MD5 digest. -/
def md5hex (msg : List Nat) : String :=
  String.mk (hexOfBytes (md5 msg))

/- ### Partition table decoding  -/

/-- Modelled from the spec: one 16-byte partition entry record, plus the
storage index attached at runtime by `set_index`. -/
structure PARTITION_ENTRY where
  boot_indicator : Nat
  starting_chs : List Nat
  partition_type : Nat
  ending_chs : List Nat
  starting_lba : Nat
  sector_count : Nat
  index : Nat
deriving DecidableEq

/-- Modelled from the spec: decode the 16-byte partition entry at byte
offset `base` of an MBR sector (fields per spec section 3). -/
def PARTITION_ENTRY_at (s : List Nat) (base : Nat) : PARTITION_ENTRY :=
  { boot_indicator := s.getD base 0
    starting_chs := [s.getD (base + 1) 0, s.getD (base + 2) 0, s.getD (base + 3) 0]
    partition_type := s.getD (base + 4) 0
    ending_chs := [s.getD (base + 5) 0, s.getD (base + 6) 0, s.getD (base + 7) 0]
    starting_lba := leNat [s.getD (base + 8) 0, s.getD (base + 9) 0,
                           s.getD (base + 10) 0, s.getD (base + 11) 0]
    sector_count := leNat [s.getD (base + 12) 0, s.getD (base + 13) 0,
                           s.getD (base + 14) 0, s.getD (base + 15) 0]
    index := 0 }

/-- Modelled from the spec: `PARTITION_TABLE.FirstEntry` at offset 0x1BE. -/
def FirstEntry (s : List Nat) : PARTITION_ENTRY := PARTITION_ENTRY_at s 0x1BE

/-- Modelled from the spec: `PARTITION_TABLE.SecondEntry` at offset 0x1CE. -/
def SecondEntry (s : List Nat) : PARTITION_ENTRY := PARTITION_ENTRY_at s 0x1CE

/-- Modelled from the spec: `PARTITION_TABLE.ThirdEntry` at offset 0x1DE. -/
def ThirdEntry (s : List Nat) : PARTITION_ENTRY := PARTITION_ENTRY_at s 0x1DE

/-- Modelled from the spec: `PARTITION_TABLE.FourthEntry` at offset 0x1EE. -/
def FourthEntry (s : List Nat) : PARTITION_ENTRY := PARTITION_ENTRY_at s 0x1EE

/-- Modelled from the spec: `PARTITION_TABLE.get_disk_signature()`, the
4-byte little-endian value at sector offset 0x1B8. -/
def get_disk_signature (s : List Nat) : Nat :=
  leNat [s.getD 0x1B8 0, s.getD 0x1B9 0, s.getD 0x1BA 0, s.getD 0x1BB 0]

/-- The `partition_entries` list from plugin lines 66-67, in storage order. -/
def partition_entries (s : List Nat) : List PARTITION_ENTRY :=
  [FirstEntry s, SecondEntry s, ThirdEntry s, FourthEntry s]

/-- `PARTITION_ENTRY.set_index` from the extension class: attach the storage
index to a decoded entry. -/
def set_index (e : PARTITION_ENTRY) (i : Nat) : PARTITION_ENTRY :=
  { e with index := i }

/-- Modelled from the spec: the name of a partition type byte, with an
explicit unknown-type fallback for unassigned values. -/
def partitionTypeName (t : Nat) : String :=
  if t = 0x00 then "Empty"
  else if t = 0x07 then "NTFS"
  else "unknown type"

/-- Modelled from the spec: the `str()` rendering of one partition entry,
always labelled with its storage index. -/
def entryStr (e : PARTITION_ENTRY) : String :=
  "Partition " ++ toString e.index
    ++ " | type: " ++ partitionTypeName e.partition_type
    ++ " | boot flag: " ++ toString e.boot_indicator
    ++ " | starting LBA: " ++ toString e.starting_lba
    ++ " | sector count: " ++ toString e.sector_count ++ " "

/-- The `partition_info` accumulation from plugin lines 68-72: enumerate the
four entries, set each index, and concatenate their renderings. -/
def partition_info (s : List Nat) : String :=
  String.join (((partition_entries s).enum).map fun pe => entryStr ( set_index pe.2 pe.1))

/- ### The generator pipeline -/

/-- `constants.LOGLEVEL_VV`, the verbose diagnostic tier used for the
all-zero rejection message (modelled from the spec: a verbose tier). -/
def LOGLEVEL_VV : Nat := 9

/-- A diagnostic log entry: the tier and the hit offset it mentions
("Not a valid MBR: Data all zeroed out" at that offset). -/
structure LogEntry where
  level : Nat
  offset : Nat
deriving DecidableEq

/-- One output record, the tuple yielded at plugin lines 74-82. -/
structure MBRRecord where
  physOffset : Nat
  diskSignature : Nat
  bootcodeHash : String
  fullHash : String
  partitionInfo : String
  disasmBytes : List Nat
  disasmOffset : Nat
  disasmArch : String
  hexBytes : List Nat
deriving DecidableEq

/-- How a generator pass can abort: a propagated read failure from the
backing address space, or the unbound `all_zeros` local (`NameError`). -/
inductive PipeError where
  | readError (e : String)
  | nameError
deriving DecidableEq

/-- The observable outcome of one generator pass: the emitted records, the
diagnostic log entries, the read requests issued to the layer
(offset, length, pad flag), and whether the pass completed (`none`) or
aborted with a propagated error. -/
structure GenOutput where
  records : List MBRRecord
  logs : List LogEntry
  reads : List (Int × Nat × Bool)
  outcome : Option PipeError
deriving DecidableEq

/-- The record assembled for one validated hit (plugin lines 63-82): hit
offset, disk signature, the two digests, the partition description, the
disassembly arguments `(boot_code, 0, architecture)` and the hex-dump
bytes.  The partition table is decoded from the candidate sector bytes. -/
def mkRecord (arch : String) (p : Nat) (full_mbr : List Nat) : MBRRecord :=
  let boot_code := full_mbr.take boot_code_length
  { physOffset := p
    diskSignature := get_disk_signature full_mbr
    bootcodeHash := md5hex boot_code
    fullHash := md5hex full_mbr
    partitionInfo := partition_info full_mbr
    disasmBytes := boot_code
    disasmOffset := 0
    disasmArch := arch
    hexBytes := boot_code }

/-- An abstract fallible layer read: the plugin issues
`layer.read(offset, length, pad = True)` and any raised failure
propagates (the plugin has no handler). -/
def ReadFn : Type := Int → Nat → Except String (List Nat)

/-- The body of `MBRScan._generator` (plugin lines 52-84) over the list of
scan hits, threading the Python local `all_zeros` across iterations exactly
as the source does.  Each hit: compute the sector start, issue the padded
512-byte read, slice the 440-byte boot code, run the validator step, then
either emit a record or log the rejection. -/
def generatorLoop (readFn : ReadFn) (arch : String) :
    List Nat → Option Bool → GenOutput
  | [], _ => ⟨[], [], [], none⟩
  | p :: rest, st =>
    let mbr_start := sector_start p
    match readFn mbr_start mbr_length with
    | .error e => ⟨[], [], [(mbr_start, mbr_length, true)], some (.readError e)⟩
    | .ok full_mbr =>
      let boot_code := full_mbr.take boot_code_length
      match validatorStep st boot_code with
      | none => ⟨[], [], [(mbr_start, mbr_length, true)], some .nameError⟩
      | some az =>
        let out := generatorLoop readFn arch rest (some az)
        if az then
          ⟨out.records, ⟨LOGLEVEL_VV, p⟩ :: out.logs,
           (mbr_start, mbr_length, true) :: out.reads, out.outcome⟩
        else
          ⟨mkRecord arch p full_mbr :: out.records, out.logs,
           (mbr_start, mbr_length, true) :: out.reads, out.outcome⟩

/-- The total padded read of the concrete address space model. -/
def okRead (data : List Nat) : ReadFn :=
  fun off len => .ok (readPad data off len)

/-- Whether the candidate sector for hit `p` has an all-zero boot code. -/
def isAllZeroBoot (data : List Nat) (p : Nat) : Bool :=
  allZerosCheck ((readPad data (sector_start p) mbr_length).take boot_code_length)

/-- The full pipeline on a concrete address space: scan, then run the
generator over the hits with the `all_zeros` local initially unbound. -/
def mbrscan (data : List Nat) (arch : String) : GenOutput :=
  generatorLoop (okRead data) arch (scanOffsets data) none

/-- The candidate sector read for hit `p`. -/
def sectorAt (data : List Nat) (p : Nat) : List Nat :=
  readPad data (sector_start p) mbr_length

/- ### Concrete address spaces and read functions used as test inputs -/

/-- A 512-byte space: one nonzero boot byte, 509 zeros, the trailing
signature at positions 510-511.  Its single hit is at offset 510. -/
def layerA : List Nat := 1 :: (List.replicate 509 0 ++ [0x55, 0xAA])

/-- The spec scenario buffer: 510 zero bytes, the signature, 466 zero
bytes.  Its single hit at 510 has an all-zero boot code. -/
def layerZeros : List Nat :=
  List.replicate 510 0 ++ [0x55, 0xAA] ++ List.replicate 466 0

/-- A 120-byte space whose single signature match sits at offset 100,
below 510, with a nonzero byte at address 0. -/
def layerLow : List Nat :=
  7 :: (List.replicate 99 0 ++ [0x55, 0xAA] ++ List.replicate 18 0)

/-- A backing layer that fails the read for the hit at offset 510. -/
def failRead : ReadFn :=
  fun off _ => if off = sector_start 510 then .error "unreadable" else .ok []

/-- A backing layer that returns 512 nonzero bytes for the hit at offset
510 and an empty buffer for every other read. -/
def staleRead : ReadFn :=
  fun off _ => if off = sector_start 510 then .ok (List.replicate 512 1) else .ok []

/- ### Helper lemmas -/

theorem readPad_length (data : List Nat) (off : Int) (len : Nat) :
    (readPad data off len).length = len := by
  simp [readPad]

theorem take_boot_length (bs : List Nat) (h : bs.length = mbr_length) :
    (bs.take boot_code_length).length = boot_code_length := by
  rw [List.length_take, h]; decide

theorem take_boot_isEmpty_false (bs : List Nat) (h : bs.length = mbr_length) :
    (bs.take boot_code_length).isEmpty = false := by
  have h1 := take_boot_length bs h
  cases h2 : bs.take boot_code_length with
  | nil => rw [h2] at h1; exact absurd h1 (by decide)
  | cons a l => rfl

theorem validatorStep_of_full (st : Option Bool) (bs : List Nat)
    (h : bs.length = mbr_length) :
    validatorStep st (bs.take boot_code_length)
      = some (allZerosCheck (bs.take boot_code_length)) := by
  simp [validatorStep, take_boot_isEmpty_false bs h]

theorem scanOffsets_nodup (data : List Nat) : (scanOffsets data).Nodup :=
  (List.nodup_range data.length).filter _

/-- Closed form of the generator over a total padded reader: records come
from the non-all-zero hits, one log entry per all-zero hit, one padded
512-byte read per hit, and the pass completes. -/
theorem generatorLoop_okRead (data : List Nat) (arch : String) (hits : List Nat) :
    ∀ st, generatorLoop (okRead data) arch hits st =
      ⟨(hits.filter fun p => ! isAllZeroBoot data p).map
          (fun p => mkRecord arch p (sectorAt data p)),
       (hits.filter fun p => isAllZeroBoot data p).map
          (fun p => ⟨LOGLEVEL_VV, p⟩),
       hits.map (fun p => (sector_start p, mbr_length, true)),
       none⟩ := by
  induction hits with
  | nil => intro st; rfl
  | cons p rest ih =>
    intro st
    have hstep := validatorStep_of_full st (readPad data (sector_start p) mbr_length)
      (readPad_length data (sector_start p) mbr_length)
    by_cases h : isAllZeroBoot data p
    · simp [generatorLoop, okRead, hstep, ih, isAllZeroBoot.eq_def, sectorAt,
        h, isAllZeroBoot] at hstep ⊢
      simp [show allZerosCheck ((readPad data (sector_start p) mbr_length).take
        boot_code_length) = true from h, List.filter_cons, h]
    · simp [generatorLoop, okRead, hstep, ih, sectorAt,
        List.filter_cons, h, isAllZeroBoot] at hstep ⊢
      simp [show allZerosCheck ((readPad data (sector_start p) mbr_length).take
        boot_code_length) = false from by simpa [isAllZeroBoot] using h]

theorem mbrscan_records (data : List Nat) (arch : String) :
    (mbrscan data arch).records =
      ((scanOffsets data).filter fun p => ! isAllZeroBoot data p).map
        (fun p => mkRecord arch p (sectorAt data p)) := by
  simp only [mbrscan]
  rw [generatorLoop_okRead]

theorem mbrscan_logs (data : List Nat) (arch : String) :
    (mbrscan data arch).logs =
      ((scanOffsets data).filter fun p => isAllZeroBoot data p).map
        (fun p => ⟨LOGLEVEL_VV, p⟩) := by
  simp only [mbrscan]
  rw [generatorLoop_okRead]

theorem mbrscan_reads (data : List Nat) (arch : String) :
    (mbrscan data arch).reads =
      (scanOffsets data).map (fun p => (sector_start p, mbr_length, true)) := by
  simp only [mbrscan]
  rw [generatorLoop_okRead]

theorem mbrscan_outcome (data : List Nat) (arch : String) :
    (mbrscan data arch).outcome = none := by
  simp only [mbrscan]
  rw [generatorLoop_okRead]

theorem mkRecord_physOffset (arch : String) (p : Nat) (s : List Nat) :
    (mkRecord arch p s).physOffset = p := rfl

theorem md5_length (msg : List Nat) : (md5 msg).length = 16 := by
  simp [md5, wordBytesLE32]

theorem hexOfBytes_length (l : List Nat) : (hexOfBytes l).length = 2 * l.length := by
  induction l with
  | nil => rfl
  | cons b bs ih => simp [hexOfBytes] at ih ⊢; omega

theorem md5hex_length (msg : List Nat) : (md5hex msg).length = 32 := by
  show (hexOfBytes (md5 msg)).length = 32
  rw [hexOfBytes_length, md5_length]

theorem hexChar_mem (n : Nat) : hexChar n ∈ hexDigits := by
  have h : n % 16 < hexDigits.length := by
    have h2 : n % 16 < 16 := Nat.mod_lt n (by decide)
    simpa [hexDigits] using h2
  rw [hexChar, List.getD_eq_getElem _ _ h]
  exact List.getElem_mem h

theorem hexDigits_not_upper : ∀ c ∈ hexDigits, c.isUpper = false := by decide

theorem hexOfBytes_mem (l : List Nat) : ∀ c ∈ hexOfBytes l, c ∈ hexDigits := by
  intro c hc
  rw [hexOfBytes, List.mem_flatMap] at hc
  obtain ⟨b, _, hb⟩ := hc
  simp only [List.mem_cons, List.not_mem_nil, or_false] at hb
  rcases hb with h | h <;> rw [h] <;> exact hexChar_mem _

theorem md5hex_chars (msg : List Nat) :
    ∀ c ∈ (md5hex msg).data, c ∈ hexDigits ∧ c.isUpper = false := by
  intro c hc
  have h2 := hexOfBytes_mem (md5 msg) c hc
  exact ⟨h2, hexDigits_not_upper c h2⟩

/- ### Claims -/

/-- C10: the count-based zero test of plugin line 60 (`count == len`) is
extensionally equal to the all-bytes-zero predicate the design calls for,
for every non-empty byte buffer. -/
theorem c10_count_check_equiv (l : List Nat) (h : l ≠ []) :
    allZerosCheck l = true ↔ allZeroSpec l := by
  rw [allZerosCheck, allZeroSpec, beq_iff_eq, List.count_eq_length]
  constructor
  · intro hz b hb
    exact (hz b hb).symm
  · intro hz b hb
    exact (hz b hb).symm

/-- Witness for C10 at the concrete buffer `[0, 0]`. -/
theorem c10_count_check_witness :
    (([0, 0] : List Nat) ≠ []) ∧ (allZerosCheck [0, 0] = true ↔ allZeroSpec [0, 0]) :=
  ⟨by decide, c10_count_check_equiv [0, 0] (by decide)⟩

/-- C8: the pipeline is a pure function of the address-space contents and
the architecture tag: running it on the same unchanged inputs yields
identical ordered offset sequences and identical records. -/
theorem c8_deterministic (d1 d2 : List Nat) (a1 a2 : String)
    (hd : d1 = d2) (ha : a1 = a2) :
    scanOffsets d1 = scanOffsets d2 ∧
    mbrscan d1 a1 = mbrscan d2 a2 ∧
    (mbrscan d1 a1).records = (mbrscan d2 a2).records := by
  subst hd; subst ha
  exact ⟨rfl, rfl, rfl⟩

/-- Witness for C8: two passes over the concrete `layerA`. -/
theorem c8_deterministic_witness :
    scanOffsets layerA = scanOffsets layerA ∧
    mbrscan layerA "intel" = mbrscan layerA "intel" ∧
    (mbrscan layerA "intel").records = (mbrscan layerA "intel").records :=
  c8_deterministic layerA layerA "intel" "intel" rfl rfl

/-- C4 (code bug): the validator on an empty boot-code slice.  The source
assigns `all_zeros` only under `if boot_code:`, so an empty slice reuses
the value left by an earlier hit — after a non-all-zero hit the stale
`False` lets the empty-slice hit emit a record (here the hit at 1000) —
and when no earlier hit assigned it, the generator aborts with the
unbound-local error instead of rejecting. -/
theorem c4_empty_slice_stale_state :
    (generatorLoop staleRead "intel" [510, 1000] none).records.map
        (fun r => r.physOffset) = [510, 1000] ∧
    (generatorLoop staleRead "intel" [1000] none).outcome
        = some PipeError.nameError ∧
    validatorStep (some false) [] = some false ∧
    validatorStep (some true) [] = some true ∧
    validatorStep none [] = none := by decide

/-- C1 (counterexample): on `layerA` the only scanner match is at 510 and a
record is emitted, but its physical-offset field is 510 — the match offset
itself — while the sector-start offset (match offset minus 510) is 0. -/
theorem c1_phys_offset_counterexample :
    scanOffsets layerA = [510] ∧
    (mbrscan layerA "intel").records.map (fun r => r.physOffset) = [510] ∧
    (510 : Nat) - 510 = 0 ∧ (510 : Nat) ≠ 0 := by decide

/-- C1 (amended): the physical-offset field of every emitted record equals
the scanner match offset itself (the position of the trailing signature),
which is the sector start plus 510; the sector-start offset `p - 510` is
used only for the read and the partition-table decoding. -/
theorem c1_phys_offset_is_match_offset (data : List Nat) (arch : String)
    (r : MBRRecord) (hr : r ∈ (mbrscan data arch).records) :
    r.physOffset ∈ scanOffsets data ∧
    r = mkRecord arch r.physOffset (sectorAt data r.physOffset) ∧
    sector_start r.physOffset = (r.physOffset : Int) - 510 := by
  rw [mbrscan_records] at hr
  simp only [List.mem_map] at hr
  obtain ⟨p, hp, he⟩ := hr
  subst he
  refine ⟨List.mem_of_mem_filter hp, rfl, ?_⟩
  simp [sector_start, mbr_length, mbr_signature]

/-- The validated hits of `layerA` are exactly the match at 510. -/
theorem layerA_filter :
    (scanOffsets layerA).filter (fun p => ! isAllZeroBoot layerA p) = [510] := by decide

/-- The record emitted for the hit at 510 of `layerA` is in the output. -/
theorem layerA_mem_record :
    mkRecord "intel" 510 (sectorAt layerA 510) ∈ (mbrscan layerA "intel").records := by
  rw [mbrscan_records, layerA_filter]
  exact List.mem_singleton.mpr rfl

/-- Witness for the amended C1 at `layerA`: the emitted record carries
physical offset 510, the match offset. -/
theorem c1_phys_offset_witness :
    mkRecord "intel" 510 (sectorAt layerA 510) ∈ (mbrscan layerA "intel").records ∧
    (mkRecord "intel" 510 (sectorAt layerA 510)).physOffset ∈ scanOffsets layerA :=
  ⟨layerA_mem_record,
   (c1_phys_offset_is_match_offset layerA "intel" _ layerA_mem_record).1⟩

/-- C2: every hit issues exactly one padded read of exactly 512 bytes at
the sector start `p - 510`; the padded buffer always has exactly 512
bytes, out-of-range positions read as zero, and the boot code is exactly
the first 440 bytes of that buffer. -/
theorem c2_read_geometry (data : List Nat) (arch : String) :
    (mbrscan data arch).reads
        = (scanOffsets data).map (fun p => (sector_start p, mbr_length, true)) ∧
    mbr_length = 512 ∧ boot_code_length = 440 ∧
    (∀ off : Int, (readPad data off mbr_length).length = mbr_length) ∧
    (∀ off : Int,
      ((readPad data off mbr_length).take boot_code_length).length = boot_code_length) ∧
    (∀ (off : Int) (i : Nat), i < mbr_length →
      (off + (i : Int) < 0 ∨ (data.length : Int) ≤ off + (i : Int)) →
      (readPad data off mbr_length).getD i 0 = 0) ∧
    (∀ r ∈ (mbrscan data arch).records,
      r.hexBytes = (sectorAt data r.physOffset).take boot_code_length) := by
  refine ⟨mbrscan_reads data arch, rfl, rfl,
    fun off => readPad_length data off mbr_length,
    fun off => take_boot_length _ (readPad_length data off mbr_length),
    ?_, ?_⟩
  · intro off i hi hout
    have hneg : ¬(0 ≤ off + (i : Int) ∧ off + (i : Int) < (data.length : Int)) := by
      rcases hout with h | h <;> intro hcon <;> rcases hcon with ⟨h1, h2⟩ <;> omega
    rw [readPad, List.getD_eq_getElem _ _ (by simpa using hi)]
    simp only [List.getElem_map, List.getElem_range]
    rw [if_neg hneg]
  · intro r hr
    rw [mbrscan_records] at hr
    simp only [List.mem_map] at hr
    obtain ⟨p, hp, he⟩ := hr
    subst he
    rfl

/-- Witness for C2 at `layerA`: one read request, at sector start 0, of
512 padded bytes. -/
theorem c2_read_geometry_witness :
    (mbrscan layerA "intel").reads = [(sector_start 510, mbr_length, true)] ∧
    mbr_length = 512 := by
  have h := c2_read_geometry layerA "intel"
  refine ⟨?_, h.2.1⟩
  rw [h.1, show scanOffsets layerA = [510] by decide]
  rfl

/-- C3: a hit with an all-zero 440-byte boot code yields no output record,
produces exactly one verbose-level diagnostic log entry noting the offset,
and the pass still completes with every hit read. -/
theorem c3_all_zero_rejection (data : List Nat) (arch : String) (p : Nat)
    (hp : p ∈ scanOffsets data) (hz : isAllZeroBoot data p = true) :
    (⟨LOGLEVEL_VV, p⟩ : LogEntry) ∈ (mbrscan data arch).logs ∧
    (mbrscan data arch).logs.count ⟨LOGLEVEL_VV, p⟩ = 1 ∧
    (∀ r ∈ (mbrscan data arch).records, r.physOffset ≠ p) ∧
    (mbrscan data arch).outcome = none ∧
    (mbrscan data arch).reads.length = (scanOffsets data).length := by
  have hinj : Function.Injective (fun q : Nat => (⟨LOGLEVEL_VV, q⟩ : LogEntry)) := by
    intro a b hab
    simpa using hab
  refine ⟨?_, ?_, ?_, mbrscan_outcome data arch, ?_⟩
  · rw [mbrscan_logs]
    exact List.mem_map.mpr ⟨p, List.mem_filter.mpr ⟨hp, hz⟩, rfl⟩
  · rw [mbrscan_logs, List.count_map_of_injective _ _ hinj,
      List.count_filter hz]
    exact List.count_eq_one_of_mem (scanOffsets_nodup data) hp
  · intro r hr heq
    rw [mbrscan_records] at hr
    simp only [List.mem_map] at hr
    obtain ⟨q, hq, he⟩ := hr
    have hq2 := (List.mem_filter.mp hq).2
    rw [← he, mkRecord_physOffset] at heq
    rw [heq, hz] at hq2
    exact absurd hq2 (by decide)
  · rw [mbrscan_reads, List.length_map]

/-- Witness for C3 at the spec scenario buffer `layerZeros`. -/
theorem c3_all_zero_rejection_witness :
    (⟨LOGLEVEL_VV, 510⟩ : LogEntry) ∈ (mbrscan layerZeros "intel").logs ∧
    (mbrscan layerZeros "intel").logs.count ⟨LOGLEVEL_VV, 510⟩ = 1 ∧
    (∀ r ∈ (mbrscan layerZeros "intel").records, r.physOffset ≠ 510) ∧
    (mbrscan layerZeros "intel").outcome = none ∧
    (mbrscan layerZeros "intel").reads.length = (scanOffsets layerZeros).length := by
  have hp : (510 : Nat) ∈ scanOffsets layerZeros := by
    rw [scanOffsets]
    refine List.mem_filter.mpr ⟨List.mem_range.mpr ?_, by decide⟩
    decide
  exact c3_all_zero_rejection layerZeros "intel" 510 hp (by decide)

/-- C5: every emitted record includes all four partition entries, decoded
in fixed storage order and labelled with indices 0, 1, 2, 3, regardless of
any entry's type byte; none is filtered out of the description. -/
theorem c5_partition_entries_all_four (data : List Nat) (arch : String)
    (r : MBRRecord) (hr : r ∈ (mbrscan data arch).records) :
    r.partitionInfo = partition_info (sectorAt data r.physOffset) ∧
    (partition_entries (sectorAt data r.physOffset)).length = 4 ∧
    (((partition_entries (sectorAt data r.physOffset)).enum).map
        (fun pe => ( set_index pe.2 pe.1).index)) = [0, 1, 2, 3] ∧
    partition_info (sectorAt data r.physOffset)
      = String.join (((partition_entries (sectorAt data r.physOffset)).enum).map
          (fun pe => entryStr ( set_index pe.2 pe.1))) := by
  rw [mbrscan_records] at hr
  simp only [List.mem_map] at hr
  obtain ⟨p, hp, he⟩ := hr
  subst he
  exact ⟨rfl, rfl, rfl, rfl⟩

/-- Witness for C5 at `layerA`. -/
theorem c5_partition_entries_witness :
    mkRecord "intel" 510 (sectorAt layerA 510) ∈ (mbrscan layerA "intel").records ∧
    (((partition_entries (sectorAt layerA 510)).enum).map
        (fun pe => ( set_index pe.2 pe.1).index)) = [0, 1, 2, 3] :=
  ⟨layerA_mem_record,
   (c5_partition_entries_all_four layerA "intel" _ layerA_mem_record).2.2.1⟩

/-- C6: the two digest fields of every emitted record are the lowercase
32-hex-character MD5 digests of exactly the 440-byte boot-code slice and
of exactly the full 512-byte sector; each digest is a pure function of its
own input alone, so the two computations share no state. -/
theorem c6_digest_fields (data : List Nat) (arch : String)
    (r : MBRRecord) (hr : r ∈ (mbrscan data arch).records) :
    r.bootcodeHash = md5hex ((sectorAt data r.physOffset).take boot_code_length) ∧
    r.fullHash = md5hex (sectorAt data r.physOffset) ∧
    ((sectorAt data r.physOffset).take boot_code_length).length = boot_code_length ∧
    (sectorAt data r.physOffset).length = mbr_length ∧
    r.bootcodeHash.length = 32 ∧ r.fullHash.length = 32 ∧
    (∀ c ∈ r.bootcodeHash.data, c ∈ hexDigits ∧ c.isUpper = false) ∧
    (∀ c ∈ r.fullHash.data, c ∈ hexDigits ∧ c.isUpper = false) ∧
    (∀ s t : List Nat, s.take boot_code_length = t.take boot_code_length →
      md5hex (s.take boot_code_length) = md5hex (t.take boot_code_length)) := by
  rw [mbrscan_records] at hr
  simp only [List.mem_map] at hr
  obtain ⟨p, hp, he⟩ := hr
  subst he
  exact ⟨rfl, rfl, take_boot_length _ (readPad_length data (sector_start p) mbr_length),
    readPad_length data (sector_start p) mbr_length,
    md5hex_length _, md5hex_length _, md5hex_chars _, md5hex_chars _,
    fun s t h => by rw [h]⟩

/-- Witness for C6 at `layerA`. -/
theorem c6_digest_fields_witness :
    mkRecord "intel" 510 (sectorAt layerA 510) ∈ (mbrscan layerA "intel").records ∧
    (mkRecord "intel" 510 (sectorAt layerA 510)).bootcodeHash.length = 32 ∧
    (mkRecord "intel" 510 (sectorAt layerA 510)).bootcodeHash
      = md5hex ((sectorAt layerA 510).take boot_code_length) := by
  have h := c6_digest_fields layerA "intel" _ layerA_mem_record
  exact ⟨layerA_mem_record, h.2.2.2.2.1, h.1⟩

/-- C7 (counterexample): on `layerLow` the only match is at offset 100,
below 510; the pipeline neither skips nor clamps it — it issues the read
at the negative sector start -410 and still emits a record for the hit. -/
theorem c7_negative_start_counterexample :
    scanOffsets layerLow = [100] ∧ (100 : Nat) < 510 ∧
    (mbrscan layerLow "intel").reads = [((-410 : Int), 512, true)] ∧
    ((-410 : Int) < 0) ∧
    (mbrscan layerLow "intel").records.map (fun r => r.physOffset) = [100] := by decide

/-- C7 (amended): a match at an offset below 510 is processed like any
other hit: its negative sector-start offset is passed unmodified to the
padded AddressSpace read; the pipeline performs no skip and no clamp. -/
theorem c7_negative_start_processed (data : List Nat) (arch : String) (p : Nat)
    (hp : p ∈ scanOffsets data) (hlt : p < 510) :
    (sector_start p, mbr_length, true) ∈ (mbrscan data arch).reads ∧
    sector_start p < 0 := by
  have hs : sector_start p = (p : Int) - 510 := by
    simp [sector_start, mbr_length, mbr_signature]
  refine ⟨?_, ?_⟩
  · rw [mbrscan_reads]
    exact List.mem_map.mpr ⟨p, hp, rfl⟩
  · rw [hs]
    omega

/-- Witness for the amended C7 at `layerLow`. -/
theorem c7_negative_start_witness :
    (sector_start 100, mbr_length, true) ∈ (mbrscan layerLow "intel").reads ∧
    sector_start 100 < 0 :=
  c7_negative_start_processed layerLow "intel" 100 (by decide) (by decide)

/-- C9: a read failure is fatal.  If every hit before position `k` reads a
full sector and the read for hit `k` fails, the generator surfaces exactly
that error to the caller, issues no read after the failing one, and emits
no record for hit `k` or any later hit — the failure is neither caught nor
retried. -/
theorem c9_read_failure_fatal (readFn : ReadFn) (arch : String) (hits : List Nat) :
    ∀ (st : Option Bool) (k : Nat) (e : String),
      k < hits.length →
      (∀ j, j < k → ∃ bs, readFn (sector_start (hits.getD j 0)) mbr_length
          = Except.ok bs ∧ bs.length = mbr_length) →
      readFn (sector_start (hits.getD k 0)) mbr_length = Except.error e →
      (generatorLoop readFn arch hits st).outcome = some (PipeError.readError e) ∧
      (generatorLoop readFn arch hits st).reads
        = (hits.take (k + 1)).map (fun p => (sector_start p, mbr_length, true)) ∧
      ∀ r ∈ (generatorLoop readFn arch hits st).records, r.physOffset ∈ hits.take k := by
  induction hits with
  | nil =>
    intro st k e hk
    simp at hk
  | cons p rest ih =>
    intro st k e hk hok herr
    cases k with
    | zero =>
      have h0 : readFn (sector_start p) mbr_length = Except.error e := herr
      refine ⟨?_, ?_, ?_⟩
      · simp [generatorLoop, h0]
      · simp [generatorLoop, h0]
      · intro r hr
        simp [generatorLoop, h0] at hr
    | succ k' =>
      obtain ⟨bs, hbs, hlen⟩ := hok 0 (Nat.succ_pos k')
      have hbs' : readFn (sector_start p) mbr_length = Except.ok bs := hbs
      have hstep := validatorStep_of_full st bs hlen
      cases haz : allZerosCheck (bs.take boot_code_length) with
      | true =>
        rw [haz] at hstep
        have hrec := ih (some true) k' e (by simpa using hk)
          (fun j hj => by simpa using hok (j + 1) (Nat.succ_lt_succ hj))
          (by simpa using herr)
        have hout1 : (generatorLoop readFn arch (p :: rest) st).outcome
            = (generatorLoop readFn arch rest (some true)).outcome := by
          simp [generatorLoop, hbs', hstep]
        have hout2 : (generatorLoop readFn arch (p :: rest) st).reads
            = (sector_start p, mbr_length, true)
              :: (generatorLoop readFn arch rest (some true)).reads := by
          simp [generatorLoop, hbs', hstep]
        have hout3 : (generatorLoop readFn arch (p :: rest) st).records
            = (generatorLoop readFn arch rest (some true)).records := by
          simp [generatorLoop, hbs', hstep]
        refine ⟨?_, ?_, ?_⟩
        · rw [hout1]; exact hrec.1
        · rw [hout2, hrec.2.1, List.take_succ_cons, List.map_cons]
        · intro r hr
          rw [hout3] at hr
          rw [List.take_succ_cons]
          exact List.mem_cons_of_mem _ (hrec.2.2 r hr)
      | false =>
        rw [haz] at hstep
        have hrec := ih (some false) k' e (by simpa using hk)
          (fun j hj => by simpa using hok (j + 1) (Nat.succ_lt_succ hj))
          (by simpa using herr)
        have hout1 : (generatorLoop readFn arch (p :: rest) st).outcome
            = (generatorLoop readFn arch rest (some false)).outcome := by
          simp [generatorLoop, hbs', hstep]
        have hout2 : (generatorLoop readFn arch (p :: rest) st).reads
            = (sector_start p, mbr_length, true)
              :: (generatorLoop readFn arch rest (some false)).reads := by
          simp [generatorLoop, hbs', hstep]
        have hout3 : (generatorLoop readFn arch (p :: rest) st).records
            = mkRecord arch p bs
              :: (generatorLoop readFn arch rest (some false)).records := by
          simp [generatorLoop, hbs', hstep]
        refine ⟨?_, ?_, ?_⟩
        · rw [hout1]; exact hrec.1
        · rw [hout2, hrec.2.1, List.take_succ_cons, List.map_cons]
        · intro r hr
          rw [hout3] at hr
          rw [List.take_succ_cons]
          rcases List.mem_cons.mp hr with h | h
          · exact List.mem_cons.mpr (Or.inl (by rw [h, mkRecord_physOffset]))
          · exact List.mem_cons.mpr (Or.inr (hrec.2.2 r h))

/-- Witness for C9: a backing layer that fails the single read. -/
theorem c9_read_failure_witness :
    (generatorLoop failRead "intel" [510] none).outcome
        = some (PipeError.readError "unreadable") ∧
    (generatorLoop failRead "intel" [510] none).reads
        = [(sector_start 510, mbr_length, true)] ∧
    (generatorLoop failRead "intel" [510] none).records = [] := by
  have h := c9_read_failure_fatal failRead "intel" [510] none 0 "unreadable"
    (by decide) (fun j hj => absurd hj (by omega)) (by rfl)
  refine ⟨h.1, by simpa using h.2.1, ?_⟩
  cases hr : (generatorLoop failRead "intel" [510] none).records with
  | nil => rfl
  | cons a l =>
    have := h.2.2 a (by rw [hr]; exact List.mem_cons_self a l)
    simp at this
